import Mathlib

/-!
Verification of the fixed-size worker thread pool in `src/threadPool.c`
(shayslonim/C-ThreadPool).

The C functions are shallowly embedded as Lean functions:

* The external FIFO queue collaborator (`osCreateQueue` / `osIsQueueEmpty` /
  `osEnqueue` / `osDequeue`) is modelled as a `List`: enqueue appends at the
  tail, dequeue takes the head.  `osDequeue` on an empty queue is undefined in
  the collaborator contract, so it is modelled as `Option`, `none` standing
  for the undefined behaviour.
* C pointers that may be `NULL` are modelled as `Option`; dereferencing a
  `none` pointer is a distinguished `crash` outcome, not a return value.
* `malloc` / `pthread` primitives that can fail are driven by explicit
  boolean oracles, so every failure path of the C code is a reachable branch
  of the embedding.
* The concurrent behaviour relevant to the temporal claims is captured by a
  small-step transition system `PoolStep` over `SysState`.  Each step is one
  critical section of the monitor (all queue and flag accesses in the C code
  happen under the single mutex, so the global behaviour is an interleaving
  of these atomic sections).  A dequeued task node is owned exclusively by
  the dequeuing worker (it is popped under the lock and never shared), so
  dequeue + execute + free is modelled as one step.
-/

/-- The `task_node` struct of `threadPool.c` (built by `tnCreate`,
lines 232-245): a callable (a C function pointer, modelled as an optional
code with `none` standing for `NULL`) and its opaque parameter. -/
structure task_node where
  computeFunc : Option Nat
  parameters : Nat
deriving DecidableEq

/-- `tnCreate` (threadPool.c lines 232-245): allocates a `task_node` and
stores the callable and parameter.  `allocOk` is the outcome of the `malloc`;
when it fails the function returns `NULL` (`none`). -/
def tnCreate (allocOk : Bool) (computeFunc : Option Nat) (param : Nat) :
    Option task_node :=
  if allocOk then some ⟨computeFunc, param⟩ else none

/-- Collaborator `osIsQueueEmpty`: emptiness check of the FIFO queue. -/
def osIsQueueEmpty {τ : Type} (q : List τ) : Bool :=
  q.isEmpty

/-- Collaborator `osEnqueue`: appends at the tail of the FIFO queue. -/
def osEnqueue {τ : Type} (q : List τ) (t : τ) : List τ :=
  q ++ [t]

/-- Collaborator `osDequeue`: removes the head of the FIFO queue.  The
contract leaves it undefined on an empty queue, modelled by `none`. -/
def osDequeue {τ : Type} (q : List τ) : Option (τ × List τ) :=
  match q with
  | [] => none
  | t :: r => some (t, r)

/-- Result of one wake-up of a worker inside `tpRoutine`'s loop:
either the thread leaves the loop (the `break`s at lines 45 and 50, after
which the mutex is released and the thread exits), or it pops the head task
`t`, leaving `rest`, releases the lock, runs `t.computeFunc` on
`t.parameters` and frees the node (lines 57-62). -/
inductive RoutineResult (τ : Type) where
  | terminated : RoutineResult τ
  | executed (t : τ) (rest : List τ) : RoutineResult τ
deriving DecidableEq

/-- The shutdown-policy / dequeue section of `tpRoutine`
(threadPool.c lines 41-62), evaluated under the lock once the wait loop at
line 29 has exited.  `sd` is `isShuttingDown`, `drain` is
`shouldWaitForTasks`.  A `none` result means `osDequeue` was invoked on an
empty queue (undefined by the collaborator contract). -/
def tpRoutineBody {τ : Type} (q : List τ) (sd drain : Bool) :
    Option (RoutineResult τ) :=
  if sd && drain && osIsQueueEmpty q then some .terminated
  else if sd && !drain then some .terminated
  else
    match osDequeue q with
    | none => none
    | some (t, r) => some (.executed t r)

/-- Outcome of the entry check of `tpRoutine` (threadPool.c lines 11-17):
given the `void *pool` argument, either return `NULL` at once (line 15) or
enter the worker loop on the cast pool.  The second component counts the
mutex acquisitions performed before the outcome: the `NULL` path returns
before any primitive is touched, the loop path first locks the mutex at
line 24. -/
def tpRoutineEntry {π : Type} (pool : Option π) : Option π × Nat :=
  match pool with
  | none => (none, 0)
  | some p => (some p, 1)

/-- The teardown drain loop of `tpFreeThreadPool` (threadPool.c lines
258-260): while `osIsQueueEmpty` returns false, `osDequeue` and free one
node.  Returns the number of nodes freed; `none` would mean the loop called
`osDequeue` on an empty queue. -/
def tpFreeTasks {τ : Type} (q : List τ) : Option Nat :=
  if osIsQueueEmpty q then some 0
  else
    match h : osDequeue q with
    | none => none
    | some p => (tpFreeTasks p.2).map (· + 1)
termination_by q.length
decreasing_by
  cases q with
  | nil => simp [osDequeue] at h
  | cons t r =>
    simp only [osDequeue, Option.some.injEq] at h
    subst h
    simp

/-- The `struct thread_pool` fields observable by the embedded operations:
the task queue, the `isShuttingDown` and `shouldWaitForTasks` flags and the
worker count.  The mutex, condition variable and thread handles carry no
observable data and are represented by the oracles and effect records of the
individual operations. -/
structure thread_pool where
  taskQueue : List task_node
  isShuttingDown : Bool
  shouldWaitForTasks : Bool
  numOfThreads : Nat
deriving DecidableEq

/-- `TASK_INSERT_FAILURE` from `threadPool.h`: the doc comment of
`tpInsertTask` states "-1 if failed, 0 if worked". -/
def TASK_INSERT_FAILURE : Int := -1

/-- `TASK_INSERT_SUCCESS` from `threadPool.h` ("0 if worked"). -/
def TASK_INSERT_SUCCESS : Int := 0

/-- Outcomes of the fallible primitives invoked by `tpInsertTask`, in the
order the code reaches them: the `malloc` inside `tnCreate` (line 197), the
`pthread_mutex_lock` (line 203), the `pthread_cond_signal` (line 212) and
the `pthread_mutex_unlock` (line 218). -/
structure SubmitEnv where
  allocOk : Bool
  lockOk : Bool
  signalOk : Bool
  unlockOk : Bool
deriving DecidableEq

/-- Result of a `tpInsertTask` call: either undefined behaviour from
dereferencing a `NULL` pool pointer, or a return value together with the
pool state after the call and whether `pthread_cond_signal` woke a
waiter. -/
inductive SubmitOutcome where
  | crash : SubmitOutcome
  | ret (code : Int) (pool : thread_pool) (signalled : Bool) : SubmitOutcome
deriving DecidableEq

/-- `tpInsertTask` (threadPool.c lines 187-224).  The guard at line 190
evaluates `threadPool->isShuttingDown` BEFORE the `threadPool == NULL`
test, so a `NULL` pool is dereferenced — modelled as `crash`; the
`threadPool == NULL` disjunct is dead code afterwards.  On the non-crash
paths the function mirrors the source line by line: reject when shutting
down or the callable is `NULL`; build the node with `tnCreate` (fail if the
allocation fails); lock (fail, nothing enqueued, if the lock call errors);
`osEnqueue`; `pthread_cond_signal` (on error return failure, the node
already enqueued, no waiter woken); unlock (on error return failure, node
enqueued and signalled); else success. -/
def tpInsertTask (threadPool : Option thread_pool)
    (computeFunc : Option Nat) (param : Nat) (env : SubmitEnv) :
    SubmitOutcome :=
  match threadPool with
  | none => .crash
  | some tp =>
    if tp.isShuttingDown || computeFunc == none then
      .ret TASK_INSERT_FAILURE tp false
    else
      match tnCreate env.allocOk computeFunc param with
      | none => .ret TASK_INSERT_FAILURE tp false
      | some taskNode =>
        if !env.lockOk then .ret TASK_INSERT_FAILURE tp false
        else
          let tp1 := { tp with taskQueue := osEnqueue tp.taskQueue taskNode }
          if !env.signalOk then .ret TASK_INSERT_FAILURE tp1 false
          else if !env.unlockOk then .ret TASK_INSERT_FAILURE tp1 true
          else .ret TASK_INSERT_SUCCESS tp1 true

/-- Side effects of a `tpDestroy` call: how many `pthread_cond_broadcast`
calls were made, how many worker threads were joined, and whether
`tpFreeThreadPool` released the pool's resources. -/
structure DestroyEffects where
  broadcasts : Nat
  joins : Nat
  freedPool : Bool
deriving DecidableEq

/-- `tpDestroy` (threadPool.c lines 141-174).  If `isShuttingDown` is
already set, return at once (lines 143-146): the pool is untouched, nothing
is broadcast, joined or freed.  Otherwise, under the lock, record
`shouldWaitForTasks` (`0` means no drain, any other value means drain,
line 153), set `isShuttingDown` (line 154), broadcast, unlock, join every
one of `numOfThreads` workers, then `tpFreeThreadPool` frees the remaining
queue nodes and the pool itself. -/
def tpDestroy (threadPool : thread_pool) (shouldWaitForTasks : Int) :
    thread_pool × DestroyEffects :=
  if threadPool.isShuttingDown then
    (threadPool, ⟨0, 0, false⟩)
  else
    let tp1 := { threadPool with
      shouldWaitForTasks := !(shouldWaitForTasks == 0),
      isShuttingDown := true }
    ({ tp1 with taskQueue := [] }, ⟨1, threadPool.numOfThreads, true⟩)

/-- Outcomes of the fallible allocations performed by `tpCreate`, in source
order: the pool struct `malloc` (line 83), the thread-handle array `malloc`
(line 89), the mutex `malloc` (line 97), the condition-variable `malloc`
(line 102), `osCreateQueue` (line 108), and the per-thread handle `malloc`
at index `i` inside the start loop (line 126). -/
structure CreateEnv where
  poolOk : Bool
  arrayOk : Bool
  mutexOk : Bool
  cvOk : Bool
  queueOk : Bool
  threadOk : Nat → Bool

/-- The fields of a pool as initialized by a successful `tpCreate`:
`numOfThreads` saved (line 119), `isShuttingDown` cleared (line 122), the
queue freshly created and empty.  (`shouldWaitForTasks` is left
uninitialized by `tpCreate` and so is not a field here.) -/
structure created_pool where
  numOfThreads : Nat
  isShuttingDown : Bool
  taskQueue : List task_node
deriving DecidableEq

/-- The thread-start loop of `tpCreate` (threadPool.c lines 125-131),
starting at index `i` with `n` iterations left: if the handle `malloc` at
index `i` fails the function returns `NULL` immediately (line 128) — the
workers already started keep running; otherwise `pthread_create` starts
worker `i` and the loop continues.  Returns whether the loop completed and
how many workers were started. -/
def tpSpawnLoop (threadOk : Nat → Bool) (i : Nat) : Nat → Bool × Nat
  | 0 => (true, 0)
  | n + 1 =>
    if threadOk i then
      ((tpSpawnLoop threadOk (i + 1) n).1, (tpSpawnLoop threadOk (i + 1) n).2 + 1)
    else
      (false, 0)

/-- `tpCreate` (threadPool.c lines 78-134): allocate the pool struct, the
thread-handle array, the mutex, the condition variable and the queue — each
failure returns `NULL` with no worker started — then start `numOfThreads`
workers through the loop at lines 125-131.  Returns the created pool (or
`none` on failure) paired with the number of worker threads left running. -/
def tpCreate (numOfThreads : Nat) (env : CreateEnv) :
    Option created_pool × Nat :=
  if !env.poolOk then (none, 0)
  else if !env.arrayOk then (none, 0)
  else if !env.mutexOk then (none, 0)
  else if !env.cvOk then (none, 0)
  else if !env.queueOk then (none, 0)
  else
    if (tpSpawnLoop env.threadOk 0 numOfThreads).1 then
      (some ⟨numOfThreads, false, []⟩, numOfThreads)
    else
      (none, (tpSpawnLoop env.threadOk 0 numOfThreads).2)

/-- Global state of the trace model: the pending queue and the two monitor
flags of the pool, plus history/bookkeeping for the temporal claims.  Tasks
are identified by the order of their successful submission (`nextTaskId` is
the next fresh id, so the enqueue order is `0, 1, 2, ...`).
`executedTasks` lists, in execution order, the ids whose callable was
invoked (their nodes freed right after, threadPool.c line 62);
`freedAtTeardown` lists the ids freed unexecuted by the drain loop of
`tpFreeThreadPool`; `teardownDone` is set once `tpFreeThreadPool` has run. -/
structure SysState where
  queue : List Nat
  executedTasks : List Nat
  freedAtTeardown : List Nat
  isShuttingDown : Bool
  shouldWaitForTasks : Bool
  nextTaskId : Nat
  teardownDone : Bool
deriving DecidableEq

/-- The state right after a successful `tpCreate`: empty queue, no history,
`isShuttingDown` cleared (threadPool.c line 122). -/
def initSysState : SysState :=
  ⟨[], [], [], false, false, 0, false⟩

/-- One atomic critical section of the pool, as an interleaving step.

* `submit`: a successful `tpInsertTask` — only possible while not shutting
  down (line 190) — appends a fresh task at the tail (`osEnqueue`,
  line 209).  Failed submits change nothing and need no step.
* `workerExec`: a worker wakes with the lock held and `tpRoutineBody`
  pops the head task `t` (lines 57-62); the worker then unlocks, runs the
  callable and frees the node, removing `t` from the queue and appending it
  to the execution history.
* `destroy`: the first `tpDestroy` call passes the `isShuttingDown` guard
  (lines 143-146) and, inside one critical section, records the drain flag
  and sets `isShuttingDown` (lines 153-154).  A later `tpDestroy` is a
  no-op and needs no step.
* `teardown`: after every worker has been joined, `tpFreeThreadPool` frees
  all still-queued nodes and the pool (lines 251-281).  No operation can
  touch the pool afterwards, so every step requires `teardownDone = false`. -/
inductive PoolStep : SysState → SysState → Prop where
  | submit (s : SysState)
      (htd : s.teardownDone = false) (hsd : s.isShuttingDown = false) :
      PoolStep s { s with queue := osEnqueue s.queue s.nextTaskId,
                          nextTaskId := s.nextTaskId + 1 }
  | workerExec (s : SysState) (t : Nat) (r : List Nat)
      (htd : s.teardownDone = false)
      (hrun : tpRoutineBody s.queue s.isShuttingDown s.shouldWaitForTasks
        = some (.executed t r)) :
      PoolStep s { s with queue := r,
                          executedTasks := s.executedTasks ++ [t] }
  | destroy (s : SysState) (w : Bool)
      (htd : s.teardownDone = false) (hsd : s.isShuttingDown = false) :
      PoolStep s { s with isShuttingDown := true, shouldWaitForTasks := w }
  | teardown (s : SysState)
      (htd : s.teardownDone = false) (hsd : s.isShuttingDown = true) :
      PoolStep s { s with queue := [],
                          freedAtTeardown := s.freedAtTeardown ++ s.queue,
                          teardownDone := true }

/-- Zero or more interleaving steps. -/
def PoolSteps : SysState → SysState → Prop :=
  Relation.ReflTransGen PoolStep

/-- States reachable from the post-create state. -/
def PoolReachable (s : SysState) : Prop :=
  PoolSteps initSysState s

/-- The inductive invariant of the trace model: the ids handed out so far
are exactly `0, ..., nextTaskId - 1`, and they are split — in order —
between the execution history, the pending queue and the teardown-freed
list; before teardown nothing has been teardown-freed, and after teardown
the queue is empty and the pool is shutting down. -/
def SysInv (s : SysState) : Prop :=
  s.executedTasks ++ s.queue ++ s.freedAtTeardown = List.range s.nextTaskId
  ∧ (s.teardownDone = false → s.freedAtTeardown = [])
  ∧ (s.teardownDone = true → s.queue = [] ∧ s.isShuttingDown = true)

/-- When `tpRoutineBody` pops a task, that task is the head of the queue and
the remainder is its tail (the queue was non-empty at the `osDequeue`). -/
lemma tpRoutineBody_executed {τ : Type} {q : List τ} {sd drain : Bool}
    {t : τ} {r : List τ}
    (h : tpRoutineBody q sd drain = some (.executed t r)) : q = t :: r := by
  unfold tpRoutineBody at h
  split at h
  · simp at h
  · split at h
    · simp at h
    · cases q with
      | nil => simp [osDequeue] at h
      | cons a l =>
        simp only [osDequeue, Option.some.injEq, RoutineResult.executed.injEq] at h
        rw [h.1, h.2]

/-- Shutting down with drain not requested: every wake-up terminates the
worker (threadPool.c lines 48-51), no task is popped. -/
lemma tpRoutineBody_noDrain {τ : Type} (q : List τ) :
    tpRoutineBody q true false = some .terminated := by
  simp [tpRoutineBody]

/-- The invariant holds right after `tpCreate`. -/
lemma sysInv_init : SysInv initSysState := by
  simp [SysInv, initSysState]

/-- Every interleaving step preserves the invariant. -/
lemma sysInv_step (s s' : SysState) (h : PoolStep s s') (hinv : SysInv s) :
    SysInv s' := by
  obtain ⟨h1, h2, h3⟩ := hinv
  cases h with
  | submit htd hsd =>
    have hfr : s.freedAtTeardown = [] := h2 htd
    refine ⟨?_, fun _ => hfr, fun hc => by simp [htd] at hc⟩
    simp only [osEnqueue, List.range_succ]
    rw [hfr, List.append_nil] at h1
    simp [← List.append_assoc, h1, hfr]
  | workerExec t r htd hrun =>
    have hq : s.queue = t :: r := tpRoutineBody_executed hrun
    refine ⟨?_, h2, fun hc => by simp [htd] at hc⟩
    rw [hq] at h1
    simpa [List.append_assoc] using h1
  | destroy w htd hsd =>
    exact ⟨h1, h2, fun hc => by simp [htd] at hc⟩
  | teardown htd hsd =>
    have hfr : s.freedAtTeardown = [] := h2 htd
    refine ⟨?_, fun hc => by simp at hc, fun _ => ⟨rfl, hsd⟩⟩
    rw [hfr, List.append_nil] at h1
    simpa [hfr] using h1

/-- Every reachable state satisfies the invariant. -/
lemma poolReachable_inv (s : SysState) (h : PoolReachable s) : SysInv s := by
  induction h with
  | refl => exact sysInv_init
  | tail hst hstep ih => exact sysInv_step _ _ hstep ih

/-- Once the pool is shutting down with drain not requested, no further
step executes a task, and both flags keep their values. -/
lemma executed_frozen (s s' : SysState) (h : PoolSteps s s')
    (hsd : s.isShuttingDown = true) (hdr : s.shouldWaitForTasks = false) :
    s'.executedTasks = s.executedTasks ∧ s'.isShuttingDown = true ∧
      s'.shouldWaitForTasks = false := by
  induction h with
  | refl => exact ⟨rfl, hsd, hdr⟩
  | tail hst hstep ih =>
    obtain ⟨he, hs, hd⟩ := ih
    cases hstep with
    | submit htd hsd2 => simp [hs] at hsd2
    | workerExec t r htd hrun =>
      rw [hs, hd, tpRoutineBody_noDrain] at hrun
      simp at hrun
    | destroy w htd hsd2 => simp [hs] at hsd2
    | teardown htd hsd2 => exact ⟨he, hs, hd⟩

/-- The teardown drain loop frees exactly the queued nodes, one per
iteration; in particular it never hits the undefined empty-dequeue case. -/
lemma tpFreeTasks_eq {τ : Type} (l : List τ) : tpFreeTasks l = some l.length := by
  induction l with
  | nil => simp [tpFreeTasks, osIsQueueEmpty]
  | cons t r ih => rw [tpFreeTasks]; simp [osIsQueueEmpty, osDequeue, ih]

/-- If some thread-handle allocation within range fails, the start loop
reports failure. -/
lemma tpSpawnLoop_false (threadOk : Nat → Bool) (i n : Nat)
    (h : ∃ j, j < n ∧ threadOk (i + j) = false) :
    (tpSpawnLoop threadOk i n).1 = false := by
  induction n generalizing i with
  | zero =>
    obtain ⟨j, hj, _⟩ := h
    exact absurd hj (Nat.not_lt_zero j)
  | succ n ih =>
    obtain ⟨j, hj, hfj⟩ := h
    by_cases hok : threadOk i = true
    · cases j with
      | zero =>
        rw [Nat.add_zero] at hfj
        rw [hok] at hfj
        cases hfj
      | succ k =>
        have : (tpSpawnLoop threadOk (i + 1) n).1 = false := by
          refine ih (i + 1) ⟨k, by omega, ?_⟩
          rw [show i + 1 + k = i + (k + 1) by omega]
          exact hfj
        simp [tpSpawnLoop, hok, this]
    · simp [tpSpawnLoop, hok]

/-- If the first failing thread-handle allocation is at index `k`, the
start loop stops there with exactly `k` workers already started. -/
lemma tpSpawnLoop_started (threadOk : Nat → Bool) (k : Nat) :
    ∀ i n, k < n → (∀ j, j < k → threadOk (i + j) = true) →
      threadOk (i + k) = false → tpSpawnLoop threadOk i n = (false, k) := by
  induction k with
  | zero =>
    intro i n hn hbefore hfail
    rw [Nat.add_zero] at hfail
    cases n with
    | zero => exact absurd hn (Nat.not_lt_zero 0)
    | succ m => simp [tpSpawnLoop, hfail]
  | succ k ih =>
    intro i n hn hbefore hfail
    have hok : threadOk i = true := by
      have := hbefore 0 (Nat.succ_pos k)
      rwa [Nat.add_zero] at this
    cases n with
    | zero => exact absurd hn (Nat.not_lt_zero _)
    | succ m =>
      have hrec : tpSpawnLoop threadOk (i + 1) m = (false, k) := by
        refine ih (i + 1) m (by omega) (fun j hj => ?_) ?_
        · rw [show i + 1 + j = i + (j + 1) by omega]
          exact hbefore (j + 1) (by omega)
        · rw [show i + 1 + k = i + (k + 1) by omega]
          exact hfail
      simp [tpSpawnLoop, hok, hrec]

/-- C10: called with a `NULL` pool argument, `tpRoutine` returns `NULL`
immediately (threadPool.c lines 14-16): the loop is never entered, no mutex
is acquired, no queue or pool state is touched. -/
theorem tpRoutine_null_pool :
    tpRoutineEntry (none : Option thread_pool) = (none, 0) :=
  rfl

/-- C2: at every wake-up after the wait loop exits, the shutdown policy is
exactly: shutting down + drain + empty queue ⇒ terminate; shutting down +
no drain ⇒ terminate without popping; otherwise pop exactly the head task
and execute it (threadPool.c lines 41-62). -/
theorem worker_wakeup_policy (q : List Nat) (sd drain : Bool)
    (hexit : osIsQueueEmpty q = false ∨ sd = true) :
    (sd = true → drain = true → q = [] →
      tpRoutineBody q sd drain = some .terminated)
    ∧ (sd = true → drain = false →
      tpRoutineBody q sd drain = some .terminated)
    ∧ (¬(sd = true ∧ drain = true ∧ q = []) → ¬(sd = true ∧ drain = false) →
      ∃ t r, q = t :: r ∧ tpRoutineBody q sd drain = some (.executed t r)) := by
  refine ⟨fun hsd hdr hq => ?_, fun hsd hdr => ?_, fun h1 h2 => ?_⟩
  · subst hsd hdr hq
    simp [tpRoutineBody, osIsQueueEmpty]
  · subst hsd hdr
    exact tpRoutineBody_noDrain q
  · cases sd with
    | false =>
      have hq : q ≠ [] := by
        rcases hexit with h | h
        · simpa [osIsQueueEmpty, List.isEmpty_iff] using h
        · cases h
      match q, hq with
      | t :: r, _ => exact ⟨t, r, rfl, by simp [tpRoutineBody, osDequeue]⟩
    | true =>
      have hdr : drain = true := by
        cases drain with
        | false => exact absurd ⟨rfl, rfl⟩ h2
        | true => rfl
      subst hdr
      have hq : q ≠ [] := fun hq => h1 ⟨rfl, rfl, hq⟩
      match q, hq with
      | t :: r, _ =>
        exact ⟨t, r, rfl, by simp [tpRoutineBody, osIsQueueEmpty, osDequeue]⟩

theorem worker_wakeup_policy_witness :
    tpRoutineBody ([5] : List Nat) true false = some .terminated :=
  (worker_wakeup_policy [5] true false (Or.inl rfl)).2.1 rfl rfl

/-- C9: `osDequeue` is never invoked on an empty queue.  In the worker loop
the wait-loop exit condition (queue non-empty or shutting down, line 29)
together with the shutdown-policy branches guarantees the dequeue at
line 57 sees a non-empty queue (a `none` result of `tpRoutineBody` would
mark an empty dequeue); in teardown the drain loop dequeues exactly
`l.length` times, each guarded by the `osIsQueueEmpty` check. -/
theorem dequeue_never_on_empty (q l : List Nat) (sd drain : Bool)
    (hexit : osIsQueueEmpty q = false ∨ sd = true) :
    tpRoutineBody q sd drain ≠ none ∧ tpFreeTasks l = some l.length := by
  refine ⟨?_, tpFreeTasks_eq l⟩
  cases sd with
  | false =>
    have hq : q ≠ [] := by
      rcases hexit with h | h
      · simpa [osIsQueueEmpty, List.isEmpty_iff] using h
      · cases h
    match q, hq with
    | t :: r, _ => simp [tpRoutineBody, osDequeue]
  | true =>
    cases drain with
    | false => simp [tpRoutineBody_noDrain]
    | true =>
      cases q with
      | nil => simp [tpRoutineBody, osIsQueueEmpty]
      | cons t r => simp [tpRoutineBody, osIsQueueEmpty, osDequeue]

theorem dequeue_never_on_empty_witness :
    tpRoutineBody ([3] : List Nat) false false ≠ none ∧
      tpFreeTasks ([7, 8] : List Nat) = some 2 :=
  dequeue_never_on_empty [3] [7, 8] false false (Or.inl rfl)

/-- C5: calling `tpDestroy` on a pool whose shutdown has already been
initiated returns immediately (threadPool.c lines 143-146): the pool state
is unchanged, no broadcast is sent, no worker is joined, nothing is
freed. -/
theorem destroy_second_call_noop (tp : thread_pool) (w : Int)
    (hsd : tp.isShuttingDown = true) :
    tpDestroy tp w = (tp, ⟨0, 0, false⟩) := by
  simp [tpDestroy, hsd]

theorem destroy_second_call_noop_witness :
    tpDestroy ⟨[], true, true, 4⟩ 0 = (⟨[], true, true, 4⟩, ⟨0, 0, false⟩) :=
  destroy_second_call_noop ⟨[], true, true, 4⟩ 0 rfl

/-- C6 (failing input): `tpInsertTask` with a `NULL` pool dereferences the
pool at line 190 (`threadPool->isShuttingDown` is evaluated before the
`threadPool == NULL` test), so the call crashes instead of returning the
failure signal the spec requires. -/
theorem submit_null_pool_crash :
    tpInsertTask none (some 1) 0 ⟨true, true, true, true⟩ = .crash :=
  rfl

/-- C3: a `tpInsertTask` call that fails because the pool is shutting
down, the callable is `NULL`, or the `task_node` allocation fails returns
`TASK_INSERT_FAILURE` with the pool unchanged and no waiter signalled
(threadPool.c lines 189-200: all three rejections happen before the
enqueue at line 209 and the signal at line 212). -/
theorem submit_failure_no_effect (tp : thread_pool) (computeFunc : Option Nat)
    (param : Nat) (env : SubmitEnv)
    (hcause : tp.isShuttingDown = true ∨ computeFunc = none ∨
      env.allocOk = false) :
    tpInsertTask (some tp) computeFunc param env
      = .ret TASK_INSERT_FAILURE tp false := by
  rcases hcause with h | h | h
  · simp [tpInsertTask, h]
  · simp [tpInsertTask, h]
  · simp [tpInsertTask, tnCreate, h]

theorem submit_failure_no_effect_witness :
    tpInsertTask (some ⟨[], true, false, 2⟩) (some 1) 0 ⟨true, true, true, true⟩
      = .ret TASK_INSERT_FAILURE ⟨[], true, false, 2⟩ false :=
  submit_failure_no_effect ⟨[], true, false, 2⟩ (some 1) 0
    ⟨true, true, true, true⟩ (Or.inl rfl)

/-- An allocation environment where everything succeeds except the
thread-handle `malloc` for worker index 1 (threadPool.c line 126, second
loop iteration). -/
def createEnvThreadFail : CreateEnv :=
  ⟨true, true, true, true, true, fun i => i == 0⟩

/-- C4 counterexample: with two requested workers and the thread-handle
allocation failing at index 1, `tpCreate` returns the failure signal
(`NULL`) but worker 0 — started by the `pthread_create` at line 130 of the
first iteration — is left running: the claim that no worker thread of a
failed create is left running is false. -/
theorem create_partial_failure_cex :
    createEnvThreadFail.threadOk 1 = false ∧
      tpCreate 2 createEnvThreadFail = (none, 1) ∧ (1 : Nat) ≠ 0 := by
  refine ⟨rfl, rfl, by decide⟩

/-- C4 (amended): whenever any allocation step of `tpCreate` fails the
caller receives the failure signal `NULL`; an allocation failure before the
thread-start loop leaves no worker running, but a thread-handle allocation
failure at loop index `i` (after `i` successful iterations) leaves the `i`
already-started workers running. -/
theorem create_failure_behavior (n : Nat) (env : CreateEnv)
    (hfail : env.poolOk = false ∨ env.arrayOk = false ∨ env.mutexOk = false ∨
      env.cvOk = false ∨ env.queueOk = false ∨
      ∃ i, i < n ∧ env.threadOk i = false) :
    (tpCreate n env).1 = none
    ∧ ((env.poolOk = false ∨ env.arrayOk = false ∨ env.mutexOk = false ∨
        env.cvOk = false ∨ env.queueOk = false) → tpCreate n env = (none, 0))
    ∧ (∀ i, i < n → (∀ j, j < i → env.threadOk j = true) →
        env.threadOk i = false →
        env.poolOk = true → env.arrayOk = true → env.mutexOk = true →
        env.cvOk = true → env.queueOk = true →
        tpCreate n env = (none, i)) := by
  refine ⟨?_, ?_, ?_⟩
  · unfold tpCreate
    split_ifs with h1 h2 h3 h4 h5 h6
    · rfl
    · rfl
    · rfl
    · rfl
    · rfl
    · -- all five early allocations succeeded and the start loop reported
      -- success, so the failure hypothesis must name a failing thread
      -- allocation — contradicting the loop success.
      simp only [Bool.not_eq_true'] at h1 h2 h3 h4 h5
      rcases hfail with h | h | h | h | h | ⟨i, hin, hfi⟩
      · exact h1 h
      · exact h2 h
      · exact h3 h
      · exact h4 h
      · exact h5 h
      · have : (tpSpawnLoop env.threadOk 0 n).1 = false :=
          tpSpawnLoop_false env.threadOk 0 n
            ⟨i, hin, by rwa [Nat.zero_add]⟩
        rw [h6] at this; cases this
    · rfl
  · intro h
    rcases h with h | h | h | h | h <;> simp [tpCreate, h]
  · intro i hin hbefore hfi hp ha hm hc hq
    have hloop : tpSpawnLoop env.threadOk 0 n = (false, i) :=
      tpSpawnLoop_started env.threadOk i 0 n hin
        (fun j hj => by rw [Nat.zero_add]; exact hbefore j hj)
        (by rwa [Nat.zero_add])
    simp [tpCreate, hp, ha, hm, hc, hq, hloop]

theorem create_failure_behavior_witness :
    (tpCreate 1 ⟨false, true, true, true, true, fun _ => true⟩).1 = none ∧
      tpCreate 1 ⟨false, true, true, true, true, fun _ => true⟩ = (none, 0) :=
  have h := create_failure_behavior 1
    ⟨false, true, true, true, true, fun _ => true⟩ (Or.inl rfl)
  ⟨h.1, h.2.1 (Or.inl rfl)⟩

/-- C1: along every interleaving of pool operations, each task ever
enqueued (ids `0, ..., nextTaskId - 1`) occurs exactly once across the
execution history, the pending queue and the teardown-freed list — so no
task runs twice and no node is freed twice; after `tpFreeThreadPool` every
enqueued task was either executed (and its node freed at line 62) or freed
unexecuted by the teardown loop; and once shutdown with `drain = false` is
initiated no further step executes a task, so the tasks still queued at
that moment are never executed. -/
theorem task_executed_once_or_freed (s s' : SysState)
    (hreach : PoolReachable s) (hsteps : PoolSteps s s') :
    (∀ id, (s.executedTasks ++ s.queue ++ s.freedAtTeardown).count id
        = if id < s.nextTaskId then 1 else 0)
    ∧ (s.teardownDone = true → ∀ id, id < s.nextTaskId →
        (id ∈ s.executedTasks ∧ id ∉ s.freedAtTeardown) ∨
        (id ∈ s.freedAtTeardown ∧ id ∉ s.executedTasks))
    ∧ (s.isShuttingDown = true → s.shouldWaitForTasks = false →
        s'.executedTasks = s.executedTasks ∧
        ∀ id ∈ s.queue, id ∉ s'.executedTasks) := by
  have hinv := poolReachable_inv s hreach
  have hnd : (s.executedTasks ++ s.queue ++ s.freedAtTeardown).Nodup := by
    rw [hinv.1]; exact List.nodup_range _
  refine ⟨?_, ?_, ?_⟩
  · intro id
    rw [hinv.1]
    by_cases hid : id < s.nextTaskId
    · rw [if_pos hid]
      exact List.count_eq_one_of_mem (List.nodup_range _)
        (List.mem_range.mpr hid)
    · rw [if_neg hid]
      exact List.count_eq_zero.mpr fun hmem => hid (List.mem_range.mp hmem)
  · intro htd id hid
    obtain ⟨hq, _⟩ := hinv.2.2 htd
    have h1 : s.executedTasks ++ s.freedAtTeardown
        = List.range s.nextTaskId := by
      have := hinv.1
      rw [hq] at this
      simpa using this
    have hnd1 : (s.executedTasks ++ s.freedAtTeardown).Nodup := by
      rw [h1]; exact List.nodup_range _
    have hm : id ∈ s.executedTasks ++ s.freedAtTeardown := by
      rw [h1]; exact List.mem_range.mpr hid
    rcases List.mem_append.mp hm with h | h
    · exact Or.inl ⟨h, fun hf => (List.nodup_append.mp hnd1).2.2 h hf⟩
    · exact Or.inr ⟨h, fun he => (List.nodup_append.mp hnd1).2.2 he h⟩
  · intro hsd hdr
    have hfr := executed_frozen s s' hsteps hsd hdr
    refine ⟨hfr.1, fun id hq hmem => ?_⟩
    rw [hfr.1] at hmem
    exact (List.nodup_append.mp (List.nodup_append.mp hnd).1).2.2 hmem hq

theorem task_executed_once_or_freed_witness :
    (([] : List Nat) ++ [0] ++ []).count 0
      = if 0 < (1 : Nat) then 1 else 0 :=
  (task_executed_once_or_freed ⟨[0], [], [], false, false, 1, false⟩
    ⟨[0], [], [], false, false, 1, false⟩
    (Relation.ReflTransGen.single (PoolStep.submit initSysState rfl rfl))
    Relation.ReflTransGen.refl).1 0

/-- C7: `tpCreate` initializes `isShuttingDown` to `false` (threadPool.c
line 122); no interleaving step ever resets `isShuttingDown` from `true`
to `false`; and `shouldWaitForTasks` changes only in the single critical
section of `tpDestroy` that also sets `isShuttingDown` to `true`
(lines 153-154) — in particular it never changes once shutdown has been
initiated, so it is written exactly once. -/
theorem shutdown_flag_monotone (n : Nat) (env : CreateEnv)
    (s s' : SysState) (hstep : PoolStep s s') :
    initSysState.isShuttingDown = false
    ∧ (∀ p started, tpCreate n env = (some p, started) →
        p.isShuttingDown = false)
    ∧ (s.isShuttingDown = true → s'.isShuttingDown = true)
    ∧ (s'.shouldWaitForTasks ≠ s.shouldWaitForTasks →
        s.isShuttingDown = false ∧ s'.isShuttingDown = true)
    ∧ (s.isShuttingDown = true →
        s'.shouldWaitForTasks = s.shouldWaitForTasks) := by
  refine ⟨rfl, ?_, ?_⟩
  · intro p started hc
    unfold tpCreate at hc
    split_ifs at hc
    · simp at hc
    · simp at hc
    · simp at hc
    · simp at hc
    · simp at hc
    · rw [Prod.mk.injEq] at hc
      rw [← Option.some.inj hc.1]
    · simp at hc
  · cases hstep with
    | submit htd hsd =>
      exact ⟨fun h => h, fun hne => absurd rfl hne, fun _ => rfl⟩
    | workerExec t r htd hrun =>
      exact ⟨fun h => h, fun hne => absurd rfl hne, fun _ => rfl⟩
    | destroy w htd hsd =>
      refine ⟨?_, ?_, ?_⟩
      · intro h
        rfl
      · intro hne
        exact ⟨hsd, rfl⟩
      · intro h
        rw [hsd] at h
        cases h
    | teardown htd hsd =>
      exact ⟨fun h => h, fun hne => absurd rfl hne, fun _ => rfl⟩

theorem shutdown_flag_monotone_witness :
    initSysState.isShuttingDown = false ∧
      (SysState.mk [] [] [] true true 0 false).isShuttingDown = true :=
  have h := shutdown_flag_monotone 1 ⟨true, true, true, true, true, fun _ => true⟩
    initSysState ⟨[], [], [], true, true, 0, false⟩
    (PoolStep.destroy initSysState true rfl rfl)
  ⟨h.1, (h.2.2.2.1 (by decide)).2⟩

/-- C8: dequeue order equals enqueue order.  In every reachable state the
execution history is exactly the first `k` enqueued ids in enqueue order
(`0, ..., k-1`); hence if task `a` was enqueued before task `b` and `b` has
been dequeued, then `a` was dequeued too and at an earlier position. -/
theorem fifo_dequeue_order (s : SysState) (hreach : PoolReachable s)
    (a b : Nat) (hab : a < b) (hb : b ∈ s.executedTasks) :
    s.executedTasks = List.range s.executedTasks.length
    ∧ a ∈ s.executedTasks
    ∧ s.executedTasks[a]? = some a ∧ s.executedTasks[b]? = some b := by
  have hinv := poolReachable_inv s hreach
  have h1 : s.executedTasks ++ (s.queue ++ s.freedAtTeardown)
      = List.range s.nextTaskId := by
    simpa [List.append_assoc] using hinv.1
  have hlen : s.executedTasks.length ≤ s.nextTaskId := by
    have := congrArg List.length h1
    simp only [List.length_append, List.length_range] at this
    omega
  have hexec : s.executedTasks = List.range s.executedTasks.length := by
    have := congrArg (List.take s.executedTasks.length) h1
    rw [List.take_left, List.take_range, Nat.min_eq_left hlen] at this
    exact this
  have hk : b < s.executedTasks.length := by
    rw [hexec] at hb
    exact List.mem_range.mp hb
  have hak : a < s.executedTasks.length := lt_trans hab hk
  refine ⟨hexec, ?_, ?_, ?_⟩
  · rw [hexec]; exact List.mem_range.mpr hak
  · rw [hexec]; exact List.getElem?_range hak
  · rw [hexec]; exact List.getElem?_range hk

theorem fifo_dequeue_order_witness :
    ([0, 1] : List Nat) = List.range 2 ∧ (0 ∈ ([0, 1] : List Nat)) ∧
      ([0, 1] : List Nat)[0]? = some 0 ∧ ([0, 1] : List Nat)[1]? = some 1 :=
  fifo_dequeue_order ⟨[], [0, 1], [], false, false, 2, false⟩
    (Relation.ReflTransGen.tail
      (Relation.ReflTransGen.tail
        (Relation.ReflTransGen.tail
          (Relation.ReflTransGen.single (PoolStep.submit initSysState rfl rfl))
          (PoolStep.submit ⟨[0], [], [], false, false, 1, false⟩ rfl rfl))
        (PoolStep.workerExec ⟨[0, 1], [], [], false, false, 2, false⟩ 0 [1]
          rfl rfl))
      (PoolStep.workerExec ⟨[1], [0], [], false, false, 2, false⟩ 1 []
        rfl rfl))
    0 1 (by decide) (by decide)
